import Mathlib

/-!
Verification of the semantic concept-search subsystem of the ai-tutor repository
(`src/database/enhanced_search.py`, `src/database/cached_search.py`,
`src/agents/unified_assistant.py`), as a shallow embedding in Lean 4.

Numeric modelling: Python floats are modelled by exact rationals (`ℚ`) in the
search pipeline and by `ℝ` where an exact irrational value occurs (the cosine
quotient with its square-root norms).  The external sentence-transformer model
(`self.model.encode`) is a parameter of the embedding, as is the Neo4j store.
-/

namespace AiTutor

/-! ### `EnhancedCourseSearch.cosine_similarity` (enhanced_search.py lines 361-405)

The Python function accepts arbitrary values for either argument: a `str` is
first passed through `json.loads` (an exception yields `return 0.0`), then both
values must be `list`s, of equal length, with non-zero norms, before the cosine
quotient is computed.  `PyVec` models the possible runtime values: a list of
numbers, a string together with its `json.loads` outcome (`none` = the parse
raises), or a value of any other type. -/
inductive PyVec where
  | list (v : List ℚ)
  | str (parsed : Option PyVec)
  | other

/-- The deserialisation step of `cosine_similarity`: a `str` argument is replaced
by its `json.loads` outcome (`none` when the parse raises, line 373-383); any
other value passes through unchanged. -/
def pyDeserialize : PyVec → Option PyVec
  | .str p => p
  | v => some v

/-- The `isinstance(vec, list)` check of line 386: extract the numeric list. -/
def asNumList : PyVec → Option (List ℚ)
  | .list v => some v
  | _ => none

/-- `np.dot` on equal-length vectors (line 398); also the squared Euclidean norm
when both arguments coincide.  Over exact arithmetic `np.linalg.norm a == 0`
holds iff `dotQ a a = 0`. -/
def dotQ (a b : List ℚ) : ℚ := (List.zipWith (· * ·) a b).sum

/-- The cosine quotient of line 405, `dot_product / (norm_a * norm_b)`, over the
reals (the norms are square roots, hence irrational in general). -/
noncomputable def cosineOfLists (a b : List ℚ) : ℝ :=
  (dotQ a b : ℝ) / (Real.sqrt ((dotQ a a : ℚ) : ℝ) * Real.sqrt ((dotQ b b : ℚ) : ℝ))

/-- `EnhancedCourseSearch.cosine_similarity`, lines 361-405: deserialise string
arguments (parse failure returns `0.0`), require both to be lists (else `0.0`),
require equal lengths (else `0.0`), require both norms non-zero (else `0.0`),
and only then return the cosine quotient.  The function is total: no branch
raises. -/
noncomputable def cosine_similarity (vec1 vec2 : PyVec) : ℝ :=
  match pyDeserialize vec1 with
  | none => 0
  | some v1 =>
    match pyDeserialize vec2 with
    | none => 0
    | some v2 =>
      match asNumList v1, asNumList v2 with
      | some a, some b =>
        if a.length ≠ b.length then 0
        else if dotQ a a = 0 ∨ dotQ b b = 0 then 0
        else cosineOfLists a b
      | some _, none => 0
      | none, _ => 0

lemma dotQ_nil : dotQ [] [] = 0 := rfl

lemma dotQ_cons (x : ℚ) (xs : List ℚ) (y : ℚ) (ys : List ℚ) :
    dotQ (x :: xs) (y :: ys) = x * y + dotQ xs ys := by
  simp [dotQ]

lemma dotQ_self_nonneg (v : List ℚ) : 0 ≤ dotQ v v := by
  induction v with
  | nil => simp [dotQ]
  | cons x xs ih =>
      rw [dotQ_cons]
      have hx : 0 ≤ x * x := mul_self_nonneg x
      linarith

lemma dotQ_self_pos (v : List ℚ) (hv : ∃ x ∈ v, x ≠ 0) : 0 < dotQ v v := by
  induction v with
  | nil => simp at hv
  | cons y ys ih =>
      rw [dotQ_cons]
      rcases hv with ⟨x, hmem, hx⟩
      rcases List.mem_cons.mp hmem with h | h
      · subst h
        have h2 : 0 < x * x := mul_self_pos.mpr hx
        have := dotQ_self_nonneg ys
        linarith
      · have h1 := ih ⟨x, h, hx⟩
        have h2 : 0 ≤ y * y := mul_self_nonneg y
        linarith

/-! ### Data model (enhanced_search.py)

`Concept` is a node of the store as the search subsystem reads it: name,
definition, example, optional `source_type`, optional `credibility_score`
(fields the pipeline merely copies through unread — `labels`,
`chapters_mentions`, `questions` — are omitted).  `ConceptRow` is the row shape
produced by the hybrid Cypher query (lines 566-580): `credibility_score` is
already coalesced to `1.0` there, while `source_type` is returned as stored
(possibly null).  `example` is a Lean keyword, hence the field `exampleText`. -/
structure Concept where
  name : String
  definition : String
  exampleText : String
  sourceType : Option String
  credibility : Option ℚ
deriving DecidableEq

structure ConceptRow where
  title : String
  content : String
  exampleText : String
  sourceType : Option String
  credibility : ℚ
deriving DecidableEq

/-- The per-concept row of the hybrid query, with
`coalesce(n.credibility_score, 1.0)` applied (line 575). -/
def toRow (c : Concept) : ConceptRow :=
  ⟨c.name, c.definition, c.exampleText, c.sourceType, c.credibility.getD 1⟩

/-- A result dict as built in `_process_small_batch` (lines 520-533),
`_search_with_vector_index` (lines 770-783) and their callers. `name`,
`definition` duplicate `title`, `content` in the source and are omitted;
`source_type` is copied from the row verbatim (for a row the key is always
present, so the `.get` default `"official"` is never taken). -/
structure SearchResult where
  title : String
  content : String
  sourceType : Option String
  similarity : ℚ
  credibility : ℚ
  weighted : ℚ
deriving DecidableEq

/-- The mutable state of `EnhancedCourseSearch` after `__init__`: the encoder
model and the similarity scorer (external model inference is a parameter; the
scorer abstracts the rational values taken by `cosine_similarity`, which is
embedded exactly above - every theorem below quantifies over arbitrary scorer
values, so it holds for the cosine values in particular), the concept store
behind the Neo4j driver, the native vector index, its availability flag, and
the stored worker count. -/
structure Engine where
  encode : String → List ℚ
  cosQ : List ℚ → List ℚ → ℚ
  store : List Concept
  indexQuery : List ℚ → ℕ → Except Unit (List (Concept × ℚ))
  hasVectorIndex : Bool
  maxWorkers : ℕ

/-- Line 272: `self.max_workers = min(max_workers, 1)`; the attribute is never
reassigned afterwards. -/
def storedMaxWorkers (maxWorkers : ℕ) : ℕ := min maxWorkers 1

/-- `EnhancedCourseSearch.__init__` as far as the search pipeline observes it:
the constructor argument `max_workers` is clamped at line 272 and stored once. -/
def mkEngine (encode : String → List ℚ) (cosQ : List ℚ → List ℚ → ℚ)
    (store : List Concept) (indexQuery : List ℚ → ℕ → Except Unit (List (Concept × ℚ)))
    (hasVectorIndex : Bool) (maxWorkersArg : ℕ) : Engine :=
  ⟨encode, cosQ, store, indexQuery, hasVectorIndex, storedMaxWorkers maxWorkersArg⟩

/-! ### Cypher source-type filter fragments

Three query sites interpolate a source-type filter fragment into Cypher text.
`FallbackSearch` (line 125) and `_search_with_vector_index` (line 725) build
fragments that sit inside or after an existing `WHERE`; `_search_hybrid`
(line 561) builds `"AND n.source_type IN $source_types"` and splices it
directly after `MATCH (n:Concept)` with no `WHERE` (line 566-568).  Cypher's
grammar accepts a fragment directly after a `MATCH` pattern only when it is
empty or starts a `WHERE` subclause, and accepts a fragment after an existing
`WHERE` condition only when it is empty or an `AND` continuation; anything else
makes `session.run` raise a syntax error. -/

/-- `_search_hybrid` line 559-561. -/
def hybridSourceFilter (sourceTypes : Option (List String)) : String :=
  match sourceTypes with
  | some ts => if ts.length > 0 then "AND n.source_type IN $source_types" else ""
  | none => ""

/-- `_search_with_vector_index` line 723-725. -/
def nativeSourceFilter (sourceTypes : Option (List String)) : String :=
  match sourceTypes with
  | some ts => if ts.length > 0 then "WHERE c.source_type IN $source_types" else ""
  | none => ""

/-- Character-list prefix test (the computable content of
`String.startsWith`). -/
def charsPrefix : List Char → List Char → Bool
  | [], _ => true
  | _ :: _, [] => false
  | p :: ps, c :: cs => p = c && charsPrefix ps cs

/-- Validity of a fragment spliced directly after `MATCH (n:Concept)`:
empty, or a `WHERE` subclause. -/
def fragmentOkAfterMatch (frag : String) : Bool :=
  frag = "" || charsPrefix "WHERE ".data frag.data

/-- Validity of a fragment spliced after the existing
`WHERE score >= $threshold` condition: empty, or an `AND` continuation
(a second `WHERE` is a syntax error). -/
def fragmentOkAfterWhere (frag : String) : Bool :=
  frag = "" || charsPrefix "AND ".data frag.data

/-- The declarative meaning of `source_type IN $source_types` (a null
`source_type` never matches, and an empty or absent filter list means no
filtering, per the `if source_types and len(source_types) > 0` guards). -/
def sourceTypeMatches (sourceTypes : Option (List String)) (c : Concept) : Bool :=
  match sourceTypes with
  | some ts =>
      if ts.length > 0 then
        match c.sourceType with
        | some s => ts.contains s
        | none => false
      else true
  | none => true

/-- The hybrid candidate fetch (lines 556-583): runs the interpolated Cypher
with `LIMIT 100` (line 565, `max_records`).  When the interpolated filter
fragment is invalid Cypher, `session.run` raises, modelled by `.error ()`. -/
def hybridFetch (store : List Concept) (sourceTypes : Option (List String)) :
    Except Unit (List ConceptRow) :=
  if fragmentOkAfterMatch (hybridSourceFilter sourceTypes) then
    .ok (((store.filter (sourceTypeMatches sourceTypes)).take 100).map toRow)
  else .error ()

/-! ### Hybrid scoring (`_process_batch` / `_process_small_batch`) -/

/-- Python `str.strip()` with no argument: remove leading and trailing
whitespace characters. -/
def pyStrip (s : String) : String :=
  ⟨((s.data.dropWhile Char.isWhitespace).reverse.dropWhile Char.isWhitespace).reverse⟩

/-- Line 483: the text `f"{title} {content} {example}".strip()` built for each
candidate. -/
def docText (r : ConceptRow) : String :=
  pyStrip (r.title ++ " " ++ r.content ++ " " ++ r.exampleText)

/-- The per-document body of `_process_small_batch` (lines 510-533): score the
batch-encoded document text against the query embedding and keep the record
iff `similarity >= threshold`, with
`weighted_score = similarity * credibility_score`. -/
def scoreRowNE (cosQ : List ℚ → List ℚ → ℚ) (encode : String → List ℚ)
    (qemb : List ℚ) (threshold : ℚ) (r : ConceptRow) : Option SearchResult :=
  let s := cosQ qemb (encode (docText r))
  if threshold ≤ s then
    some ⟨r.title, r.content, r.sourceType, s, r.credibility, s * r.credibility⟩
  else none

/-- A record's full contribution inside `_process_batch`: records whose
combined text is empty are skipped before encoding (line 485). -/
def scoreRow (cosQ : List ℚ → List ℚ → ℚ) (encode : String → List ℚ)
    (qemb : List ℚ) (threshold : ℚ) (r : ConceptRow) : Option SearchResult :=
  if docText r = "" then none else scoreRowNE cosQ encode qemb threshold r

/-- Fuel-indexed list chunking; `chunkList n l` is the slicing
`[l[i:i+n] for i in range(0, len(l), n)]` of the source (line 595 and the
5-element sub-batching of `_process_batch`, line 476-497). -/
def chunkListAux (n : ℕ) : ℕ → List α → List (List α)
  | 0, _ => []
  | _ + 1, [] => []
  | fuel + 1, x :: xs => (x :: xs).take n :: chunkListAux n fuel ((x :: xs).drop n)

def chunkList (n : ℕ) (l : List α) : List (List α) := chunkListAux n l.length l

/-- `_process_small_batch` over one sub-batch of records with non-empty text:
`encode_batch` embeds each text (one vector per text, in order), and each
record is scored as in `scoreRowNE`. -/
def processSmallBatch (cosQ : List ℚ → List ℚ → ℚ) (encode : String → List ℚ)
    (qemb : List ℚ) (threshold : ℚ) (items : List ConceptRow) : List SearchResult :=
  items.filterMap (scoreRowNE cosQ encode qemb threshold)

/-- `_process_batch` (lines 456-499): the records with non-empty combined text
are grouped into successive sub-batches of five (`max_batch_size = 5`), each
processed by `_process_small_batch` appending to the shared result list. -/
def processBatch (cosQ : List ℚ → List ℚ → ℚ) (encode : String → List ℚ)
    (qemb : List ℚ) (threshold : ℚ) (batch : List ConceptRow) : List SearchResult :=
  ((chunkList 5 (batch.filter (fun r => !(docText r = "")))).map
    (processSmallBatch cosQ encode qemb threshold)).flatten

/-- Line 594: `batch_size = max(5, len(all_records) // self.max_workers)`
(Python raises `ZeroDivisionError` for `max_workers = 0`; the constructor
stores `min(max_workers, 1)`, so every reachable engine state has
`max_workers = 1` when built from an argument of at least 1). -/
def hybridBatchSize (numRecords maxWorkers : ℕ) : ℕ := max 5 (numRecords / maxWorkers)

/-- Line 601: `ThreadPoolExecutor(max_workers=min(self.max_workers, len(batches)))`. -/
def hybridPoolWorkers (maxWorkers numBatches : ℕ) : ℕ := min maxWorkers numBatches

/-- Descending order on `weighted_score`
(`results.sort(key=lambda x: x["weighted_score"], reverse=True)`, line 662). -/
def weightedGE (a b : SearchResult) : Prop := b.weighted ≤ a.weighted

instance : DecidableRel weightedGE :=
  fun a b => inferInstanceAs (Decidable (b.weighted ≤ a.weighted))

instance : IsTotal SearchResult weightedGE :=
  ⟨fun a b => le_total b.weighted a.weighted⟩

instance : IsTrans SearchResult weightedGE :=
  ⟨fun _ _ _ h1 h2 => le_trans h2 h1⟩

/-- Python's `list.sort(key=..., reverse=True)` is a stable descending sort;
insertion sort with the non-strict descending relation is the same function. -/
def sortByWeightedDesc (l : List SearchResult) : List SearchResult :=
  List.insertionSort weightedGE l

/-- `EnhancedCourseSearch._search_hybrid` (lines 537-673).  The fetch failure
(including the malformed interpolated filter) and every other exception inside
the outer `try` return `[]` (line 670-673); an empty candidate list returns
`[]` (line 586-588); otherwise the records are split into batches of
`hybridBatchSize` (line 594-595), each batch is processed (the thread pool's
`executor.map` preserves batch order, and the per-batch result lists are
concatenated in order, lines 599-610), and the collected results are sorted by
weighted score descending and truncated to `limit` (lines 662-665).  The
sequential per-record fallback of lines 612-656 recomputes exactly
`scoreRow` for each record in order, so it is result-equivalent to the pooled
branch and is not duplicated here. The `query` string parameter of the source
function is never read (only `query_embedding` is used), so it is omitted. -/
def searchHybrid (eng : Engine) (qemb : List ℚ) (limit : ℕ) (threshold : ℚ)
    (sourceTypes : Option (List String)) : List SearchResult :=
  match hybridFetch eng.store sourceTypes with
  | .error _ => []
  | .ok rows =>
    if rows.isEmpty then []
    else
      let batches := chunkList (hybridBatchSize rows.length eng.maxWorkers) rows
      let results := (batches.map (processBatch eng.cosQ eng.encode qemb threshold)).flatten
      (sortByWeightedDesc results).take limit

/-! ### Native-index path (`_search_with_vector_index`, lines 675-793) -/

/-- The Cypher `ORDER BY score * credibility_score DESC` key (line 747). -/
def nativeWeight (p : Concept × ℚ) : ℚ := p.2 * p.1.credibility.getD 1

def nativeWeightGE (a b : Concept × ℚ) : Prop := nativeWeight b ≤ nativeWeight a

instance : DecidableRel nativeWeightGE :=
  fun a b => inferInstanceAs (Decidable (nativeWeight b ≤ nativeWeight a))

instance : IsTotal (Concept × ℚ) nativeWeightGE :=
  ⟨fun a b => le_total (nativeWeight b) (nativeWeight a)⟩

instance : IsTrans (Concept × ℚ) nativeWeightGE :=
  ⟨fun _ _ _ h1 h2 => le_trans h2 h1⟩

def sortByNativeWeightDesc (l : List (Concept × ℚ)) : List (Concept × ℚ) :=
  List.insertionSort nativeWeightGE l

/-- The Python-side row conversion of lines 765-783:
`similarity = score`, `credibility_score` coalesced by the query,
`weighted_score = similarity * credibility_score`. -/
def mkNativeResult (p : Concept × ℚ) : SearchResult :=
  ⟨p.1.name, p.1.definition, p.1.sourceType, p.2, p.1.credibility.getD 1,
    p.2 * p.1.credibility.getD 1⟩

/-- `EnhancedCourseSearch._search_with_vector_index`.  The index is asked for
`k = min(limit * 3, 100)` candidates (line 728); the query keeps rows with
`score >= $threshold` and the source-type filter, orders by
`score * credibility_score` descending and truncates to `limit`
(lines 731-749).  A non-empty source-type filter splices a second `WHERE`
after the existing one, which is invalid Cypher; that, or any failure of the
index query itself, raises inside the `try`, and the `except` at lines 788-793
falls back to `_search_hybrid` with the same embedding, limit, threshold and
source types. -/
def nativeQueryRows (eng : Engine) (qemb : List ℚ) (limit : ℕ)
    (threshold : ℚ) (sourceTypes : Option (List String)) :
    Except Unit (List (Concept × ℚ)) :=
  if fragmentOkAfterWhere (nativeSourceFilter sourceTypes) then
    match eng.indexQuery qemb (min (limit * 3) 100) with
    | .ok pairs =>
        .ok ((sortByNativeWeightDesc
          (pairs.filter (fun p =>
            threshold ≤ p.2 && sourceTypeMatches sourceTypes p.1))).take limit)
    | .error e => .error e
  else .error ()

def searchWithVectorIndex (eng : Engine) (qemb : List ℚ) (limit : ℕ)
    (threshold : ℚ) (sourceTypes : Option (List String)) : List SearchResult :=
  match nativeQueryRows eng qemb limit threshold sourceTypes with
  | .error _ => searchHybrid eng qemb limit threshold sourceTypes
  | .ok pairs => pairs.map mkNativeResult

/-- `EnhancedCourseSearch.semantic_search_with_ranking` (lines 407-454): an
empty query returns `[]`; a threshold outside `[0, 1]` is replaced by `0.5`;
the query is encoded and dispatched to the native-index path when
`self.has_vector_index` holds, else to the hybrid path. -/
def semantic_search_with_ranking (eng : Engine) (query : String) (limit : ℕ)
    (threshold : ℚ) (sourceTypes : Option (List String)) : List SearchResult :=
  if query = "" then []
  else
    let th := if threshold < 0 ∨ threshold > 1 then ((1 : ℚ) / 2) else threshold
    let qemb := eng.encode query
    if eng.hasVectorIndex then searchWithVectorIndex eng qemb limit th sourceTypes
    else searchHybrid eng qemb limit th sourceTypes

/-! ### Encoder construction and degraded mode
(enhanced_search.py lines 276-303, unified_assistant.py lines 73-121) -/

/-- Which search object serves the assistant after construction. -/
inductive AssistantSearchMode where
  | enhanced
  | fallbackText
deriving DecidableEq

/-- The model-loading part of `EnhancedCourseSearch.__init__`: try the primary
model (line 287); on any exception try the smaller backup model
`MODEL_VARIANTS["fast"]` (line 295-298); if that also raises, raise
`RuntimeError` (line 303).  `primaryLoads` and `backupLoads` abstract the
outcomes of the external `SentenceTransformer(...)` constructor calls. -/
def loadSearchModel (primaryLoads backupLoads : Bool) : Except String Unit :=
  if primaryLoads then .ok ()
  else if backupLoads then .ok ()
  else .error "RuntimeError"

/-- `UnifiedAssistant.__init__` (lines 73-121): if the module-level
sentence-transformers availability check failed, use `FallbackSearch`
immediately; otherwise
construct `EnhancedCourseSearch`, and on success (the model attribute is then
non-None) use it; every exception class raised by the construction - including
the `RuntimeError` of the double load failure - is caught and replaced by
`FallbackSearch`.  No branch re-raises to the caller. -/
def initUnifiedAssistantSearch (stImportOk primaryLoads backupLoads : Bool) :
    AssistantSearchMode :=
  if !stImportOk then .fallbackText
  else
    match loadSearchModel primaryLoads backupLoads with
    | .ok _ => .enhanced
    | .error _ => .fallbackText

/-! ### Result cache (cached_search.py) -/

/-- The canonical content of a cache key.  `CachedSearch._generate_cache_key`
(lines 70-89) serialises `{"query": query, **params}` with
`json.dumps(..., sort_keys=True)` - a canonical form independent of the order
in which the keyword parameters were supplied - and md5-hashes the string to
save memory.  The key is modelled by the canonical parameter tuple itself
(md5 is assumed collision-free on these canonical strings); the field order
mirrors the sorted JSON keys `limit, query, source_types, threshold`. -/
structure CacheKey where
  limit : ℕ
  query : String
  sourceTypes : Option (List String)
  threshold : ℚ
deriving DecidableEq

def generate_cache_key (query : String) (limit : ℕ) (threshold : ℚ)
    (sourceTypes : Option (List String)) : CacheKey :=
  ⟨limit, query, sourceTypes, threshold⟩

/-- A `CachedSearchResult` (lines 19-47): the stored result list and its
creation timestamp (the stored `query`/`params` fields are never read back and
are omitted). -/
structure CacheEntry where
  results : List SearchResult
  timestamp : ℚ
deriving DecidableEq

/-- `CachedSearchResult.is_expired` (line 47):
`time.time() - self.timestamp > ttl`. -/
def isExpired (e : CacheEntry) (ttl now : ℚ) : Bool :=
  decide (ttl < now - e.timestamp)

/-- The state of a `CachedSearch` instance plus an invocation counter for the
underlying engine (`self.search_engine.semantic_search_with_ranking`), making
"the second call does not invoke the underlying search engine" expressible.
The cache dict is an insertion-ordered association list with unique keys,
exactly a Python `dict`. -/
structure CachedSearchState where
  cacheTtl : ℚ
  maxCacheSize : ℕ
  cache : List (CacheKey × CacheEntry)
  engineCalls : ℕ
deriving DecidableEq

/-- `cache_key in self.cache` / `self.cache[cache_key]` on the ordered dict. -/
def lookupCache : List (CacheKey × CacheEntry) → CacheKey → Option CacheEntry
  | [], _ => none
  | (k1, e) :: rest, k => if k1 = k then some e else lookupCache rest k

/-- `self.cache[cache_key] = entry` on the ordered dict: overwrite in place
when the key is present, else append. -/
def insertCache : List (CacheKey × CacheEntry) → CacheKey → CacheEntry →
    List (CacheKey × CacheEntry)
  | [], k, e => [(k, e)]
  | (k1, e1) :: rest, k, e =>
      if k1 = k then (k, e) :: rest else (k1, e1) :: insertCache rest k e

/-- Descending order on entry timestamps, the key of
`sorted(self.cache.items(), key=lambda x: x[1].timestamp, reverse=True)`
(lines 99-103). -/
def entryNewerEq (a b : CacheKey × CacheEntry) : Prop :=
  b.2.timestamp ≤ a.2.timestamp

instance : DecidableRel entryNewerEq :=
  fun a b => inferInstanceAs (Decidable (b.2.timestamp ≤ a.2.timestamp))

instance : IsTotal (CacheKey × CacheEntry) entryNewerEq :=
  ⟨fun a b => le_total b.2.timestamp a.2.timestamp⟩

instance : IsTrans (CacheKey × CacheEntry) entryNewerEq :=
  ⟨fun _ _ _ h1 h2 => le_trans h2 h1⟩

/-- Python `sorted(..., reverse=True)` is a stable descending sort; insertion
sort with the non-strict descending relation computes the same list. -/
def sortEntriesByTimestampDesc (l : List (CacheKey × CacheEntry)) :
    List (CacheKey × CacheEntry) :=
  List.insertionSort entryNewerEq l

/-- `CachedSearch._cleanup_cache_if_needed` (lines 91-109): when the entry
count exceeds `max_cache_size`, keep only the `max_cache_size // 2` entries
with the newest timestamps and drop the rest. -/
def cleanup_cache_if_needed (st : CachedSearchState) : CachedSearchState :=
  if st.cache.length > st.maxCacheSize then
    { st with cache := (sortEntriesByTimestampDesc st.cache).take (st.maxCacheSize / 2) }
  else st

/-- The lookup step of `CachedSearch.search` (lines 146-154): a present,
unexpired entry is served; a missing or expired entry falls through to the
compute path. -/
def cacheHit (cache : List (CacheKey × CacheEntry)) (k : CacheKey) (ttl now : ℚ) :
    Option (List SearchResult) :=
  match lookupCache cache k with
  | some e => if isExpired e ttl now then none else some e.results
  | none => none

/-- `CachedSearch.search` (lines 111-174) over an arbitrary underlying engine
function (the source calls `self.search_engine.semantic_search_with_ranking`
with the same four positional parameters): an empty query returns `[]`;
`use_cache=False` bypasses the cache entirely; otherwise a fresh result is
computed on miss or expiry, stored under the canonical key with the current
timestamp, and the capacity cleanup runs after the insertion. -/
def CachedSearch.search
    (engine : String → ℕ → ℚ → Option (List String) → List SearchResult)
    (st : CachedSearchState) (now : ℚ) (query : String) (limit : ℕ)
    (threshold : ℚ) (sourceTypes : Option (List String)) (useCache : Bool) :
    List SearchResult × CachedSearchState :=
  if query = "" then ([], st)
  else if !useCache then
    (engine query limit threshold sourceTypes,
      { st with engineCalls := st.engineCalls + 1 })
  else
    let key := generate_cache_key query limit threshold sourceTypes
    match cacheHit st.cache key st.cacheTtl now with
    | some results => (results, st)
    | none =>
        let results := engine query limit threshold sourceTypes
        let st1 : CachedSearchState :=
          { st with cache := insertCache st.cache key ⟨results, now⟩,
                    engineCalls := st.engineCalls + 1 }
        (results, cleanup_cache_if_needed st1)

/-! ### Concrete fixtures used to evaluate the pipeline at explicit inputs -/

def testConcept : Concept := ⟨"a", "b", "c", some "official", some 1⟩

def testResult : SearchResult := ⟨"a", "b", some "official", 1, 1, 1⟩

/-- A hybrid-mode engine over a one-concept store whose scorer always returns
similarity 1. -/
def testEngineHybrid : Engine :=
  mkEngine (fun _ => [1]) (fun _ _ => 1) [testConcept] (fun _ _ => .error ()) false 1

/-- The same engine with the vector-index flag set and an index whose query
always raises. -/
def testEngineIndexFail : Engine :=
  mkEngine (fun _ => [1]) (fun _ _ => 1) [testConcept] (fun _ _ => .error ()) true 1

/-- An underlying engine function for exercising the cache (results are
irrelevant to the cache claims; the invocation counter is what matters). -/
def zeroEngine : String → ℕ → ℚ → Option (List String) → List SearchResult :=
  fun _ _ _ _ => []

/-- A fresh `CachedSearch` with `cache_ttl = 100` and `max_cache_size = 1`. -/
def cacheState0 : CachedSearchState := ⟨100, 1, [], 0⟩

/-- Three consecutive searches against `cacheState0`: one for query `"a"` at
time 0, then two identical searches for query `"b"` at times 1 and 2. -/
def cacheRun1 : List SearchResult × CachedSearchState :=
  CachedSearch.search zeroEngine cacheState0 0 "a" 10 0 none true

def cacheRun2 : List SearchResult × CachedSearchState :=
  CachedSearch.search zeroEngine cacheRun1.2 1 "b" 10 0 none true

def cacheRun3 : List SearchResult × CachedSearchState :=
  CachedSearch.search zeroEngine cacheRun2.2 2 "b" 10 0 none true

/-! ### Helper lemmas about the hybrid pipeline -/

lemma chunkListAux_flatten {α : Type} (n : ℕ) (hn : 0 < n) :
    ∀ (fuel : ℕ) (l : List α), l.length ≤ fuel →
      (chunkListAux n fuel l).flatten = l := by
  intro fuel
  induction fuel with
  | zero =>
      intro l hl
      have h0 : l = [] := List.eq_nil_of_length_eq_zero (Nat.le_zero.mp hl)
      subst h0
      rfl
  | succ fuel ih =>
      intro l hl
      cases l with
      | nil => rfl
      | cons x xs =>
          have hlen : (List.drop n (x :: xs)).length ≤ fuel := by
            rw [List.length_drop]
            simp only [List.length_cons] at hl ⊢
            omega
          show (List.take n (x :: xs) ::
              chunkListAux n fuel (List.drop n (x :: xs))).flatten = x :: xs
          rw [List.flatten_cons, ih _ hlen, List.take_append_drop]

lemma chunkList_flatten {α : Type} (n : ℕ) (hn : 0 < n) (l : List α) :
    (chunkList n l).flatten = l :=
  chunkListAux_flatten n hn l.length l le_rfl

lemma flatten_map_filterMap {α β : Type} (f : α → Option β) (L : List (List α)) :
    (L.map (List.filterMap f)).flatten = L.flatten.filterMap f := by
  induction L with
  | nil => rfl
  | cons l L ih =>
      rw [List.map_cons, List.flatten_cons, List.flatten_cons, List.filterMap_append, ih]

lemma processSmallBatch_eq (cosQ : List ℚ → List ℚ → ℚ) (encode : String → List ℚ)
    (qemb : List ℚ) (th : ℚ) :
    processSmallBatch cosQ encode qemb th
      = List.filterMap (scoreRowNE cosQ encode qemb th) := rfl

lemma filterMap_scoreRowNE_filter (cosQ : List ℚ → List ℚ → ℚ)
    (encode : String → List ℚ) (qemb : List ℚ) (th : ℚ) (batch : List ConceptRow) :
    (batch.filter (fun r => !(docText r = ""))).filterMap
        (scoreRowNE cosQ encode qemb th)
      = batch.filterMap (scoreRow cosQ encode qemb th) := by
  induction batch with
  | nil => rfl
  | cons r rest ih =>
      by_cases h : docText r = ""
      · have hsr : scoreRow cosQ encode qemb th r = none := by simp [scoreRow, h]
        simp [List.filter_cons, h, List.filterMap_cons, hsr, ih]
      · have hsr : scoreRow cosQ encode qemb th r = scoreRowNE cosQ encode qemb th r := by
          simp [scoreRow, h]
        cases hne : scoreRowNE cosQ encode qemb th r <;>
          simp [List.filter_cons, h, List.filterMap_cons, hsr, hne, ih]

lemma processBatch_eq (cosQ : List ℚ → List ℚ → ℚ) (encode : String → List ℚ)
    (qemb : List ℚ) (th : ℚ) (batch : List ConceptRow) :
    processBatch cosQ encode qemb th batch
      = batch.filterMap (scoreRow cosQ encode qemb th) := by
  unfold processBatch
  rw [processSmallBatch_eq, flatten_map_filterMap, chunkList_flatten 5 (by norm_num),
    filterMap_scoreRowNE_filter]

lemma hybridCollect_eq (cosQ : List ℚ → List ℚ → ℚ) (encode : String → List ℚ)
    (qemb : List ℚ) (th : ℚ) (bs : ℕ) (hbs : 0 < bs) (rows : List ConceptRow) :
    ((chunkList bs rows).map (processBatch cosQ encode qemb th)).flatten
      = rows.filterMap (scoreRow cosQ encode qemb th) := by
  have h1 : (chunkList bs rows).map (processBatch cosQ encode qemb th)
      = (chunkList bs rows).map (List.filterMap (scoreRow cosQ encode qemb th)) :=
    List.map_congr_left (fun b _ => processBatch_eq cosQ encode qemb th b)
  rw [h1, flatten_map_filterMap, chunkList_flatten bs hbs]

lemma hybridBatchSize_pos (numRecords maxWorkers : ℕ) :
    0 < hybridBatchSize numRecords maxWorkers :=
  lt_of_lt_of_le (by norm_num) (le_max_left 5 _)

/-- The result list of `_search_hybrid` before sorting and truncating is the
per-record `scoreRow` collection, its order untouched by batching. -/
lemma searchHybrid_eq (eng : Engine) (qemb : List ℚ) (limit : ℕ) (th : ℚ)
    (sts : Option (List String)) :
    searchHybrid eng qemb limit th sts =
      match hybridFetch eng.store sts with
      | .error _ => []
      | .ok rows =>
          if rows.isEmpty then []
          else (sortByWeightedDesc
            (rows.filterMap (scoreRow eng.cosQ eng.encode qemb th))).take limit := by
  unfold searchHybrid
  cases hybridFetch eng.store sts with
  | error e => rfl
  | ok rows =>
      by_cases h : rows.isEmpty
      · simp [h]
      · simp only [h, Bool.false_eq_true, if_false]
        rw [hybridCollect_eq eng.cosQ eng.encode qemb th _
          (hybridBatchSize_pos rows.length eng.maxWorkers) rows]

lemma scoreRow_eq_some {cosQ : List ℚ → List ℚ → ℚ} {encode : String → List ℚ}
    {qemb : List ℚ} {th : ℚ} {row : ConceptRow} {r : SearchResult}
    (h : scoreRow cosQ encode qemb th row = some r) :
    r.weighted = r.similarity * r.credibility ∧ th ≤ r.similarity ∧
      r.credibility = row.credibility := by
  unfold scoreRow at h
  split at h
  · exact absurd h (by simp)
  · simp only [scoreRowNE] at h
    split at h
    · cases h
      exact ⟨rfl, by assumption, rfl⟩
    · exact absurd h (by simp)

lemma mem_searchHybrid {eng : Engine} {qemb : List ℚ} {limit : ℕ} {th : ℚ}
    {sts : Option (List String)} {r : SearchResult}
    (hr : r ∈ searchHybrid eng qemb limit th sts) :
    ∃ row, scoreRow eng.cosQ eng.encode qemb th row = some r := by
  rw [searchHybrid_eq] at hr
  split at hr
  · cases hr
  · split at hr
    · cases hr
    · have h1 := (List.take_sublist _ _).subset hr
      have h2 := (List.perm_insertionSort weightedGE _).subset h1
      obtain ⟨row, _hmem, hrow⟩ := List.mem_filterMap.mp h2
      exact ⟨row, hrow⟩

lemma sorted_take_searchHybrid (eng : Engine) (qemb : List ℚ) (limit : ℕ)
    (th : ℚ) (sts : Option (List String)) :
    List.Pairwise weightedGE (searchHybrid eng qemb limit th sts) ∧
      (searchHybrid eng qemb limit th sts).length ≤ limit := by
  rw [searchHybrid_eq]
  split
  · exact ⟨List.Pairwise.nil, by simp⟩
  · split
    · exact ⟨List.Pairwise.nil, by simp⟩
    · constructor
      · exact List.Pairwise.sublist (List.take_sublist _ _)
          (List.sorted_insertionSort weightedGE _)
      · rw [List.length_take]
        exact min_le_left _ _

/-! ### Helper lemmas about the native-index path -/

lemma nativeQueryRows_ok {eng : Engine} {qemb : List ℚ} {limit : ℕ} {th : ℚ}
    {sts : Option (List String)} {pairs : List (Concept × ℚ)}
    (h : nativeQueryRows eng qemb limit th sts = .ok pairs) :
    ∃ raw, eng.indexQuery qemb (min (limit * 3) 100) = .ok raw ∧
      pairs = (sortByNativeWeightDesc (raw.filter (fun p =>
        th ≤ p.2 && sourceTypeMatches sts p.1))).take limit := by
  unfold nativeQueryRows at h
  split at h
  · split at h
    next raw heq =>
      cases h
      exact ⟨raw, heq, rfl⟩
    next e heq => cases h
  · cases h

lemma nativeQueryRows_error_of_indexFail {eng : Engine} {qemb : List ℚ}
    {limit : ℕ} {th : ℚ} {sts : Option (List String)}
    (hfail : eng.indexQuery qemb (min (limit * 3) 100) = .error ()) :
    nativeQueryRows eng qemb limit th sts = .error () := by
  unfold nativeQueryRows
  split
  · rw [hfail]
  · rfl

lemma mem_searchWithVectorIndex {eng : Engine} {qemb : List ℚ} {limit : ℕ}
    {th : ℚ} {sts : Option (List String)} {r : SearchResult}
    (hr : r ∈ searchWithVectorIndex eng qemb limit th sts) :
    (∃ p : Concept × ℚ, th ≤ p.2 ∧ r = mkNativeResult p) ∨
      r ∈ searchHybrid eng qemb limit th sts := by
  unfold searchWithVectorIndex at hr
  split at hr
  · exact Or.inr hr
  · next pairs heq =>
      obtain ⟨raw, hraw, hpairs⟩ := nativeQueryRows_ok heq
      subst hpairs
      obtain ⟨p, hp, hpr⟩ := List.mem_map.mp hr
      have hp1 := (List.take_sublist _ _).subset hp
      have hp2 := (List.perm_insertionSort nativeWeightGE _).subset hp1
      have hp3 := (List.mem_filter.mp hp2).2
      have hth : th ≤ p.2 := of_decide_eq_true ((Bool.and_eq_true _ _).mp hp3).1
      exact Or.inl ⟨p, hth, hpr.symm⟩

lemma sorted_take_searchWithVectorIndex (eng : Engine) (qemb : List ℚ)
    (limit : ℕ) (th : ℚ) (sts : Option (List String)) :
    List.Pairwise weightedGE (searchWithVectorIndex eng qemb limit th sts) ∧
      (searchWithVectorIndex eng qemb limit th sts).length ≤ limit := by
  unfold searchWithVectorIndex
  split
  · exact sorted_take_searchHybrid eng qemb limit th sts
  · next pairs heq =>
      obtain ⟨raw, hraw, hpairs⟩ := nativeQueryRows_ok heq
      subst hpairs
      constructor
      · rw [List.pairwise_map]
        exact List.Pairwise.sublist (List.take_sublist _ _)
          (List.sorted_insertionSort nativeWeightGE _)
      · rw [List.length_map, List.length_take]
        exact min_le_left _ _

/-! ### Concrete evaluations of the pipeline fixtures -/

lemma scoreRow_testConcept :
    scoreRow testEngineHybrid.cosQ testEngineHybrid.encode [1] ((1:ℚ)/2)
      (toRow testConcept) = some testResult := by
  unfold scoreRow scoreRowNE
  rw [if_neg (by decide : ¬ (docText (toRow testConcept) = ""))]
  rw [if_pos (by norm_num [testEngineHybrid, mkEngine] :
    ((1:ℚ)/2) ≤ testEngineHybrid.cosQ [1]
      (testEngineHybrid.encode (docText (toRow testConcept))))]
  show some _ = some testResult
  norm_num [testEngineHybrid, mkEngine, toRow, testConcept, testResult]

lemma searchHybrid_fixture_eval :
    searchHybrid testEngineHybrid [1] 10 ((1:ℚ)/2) none = [testResult] := by
  rw [searchHybrid_eq]
  have hfetch : hybridFetch testEngineHybrid.store none = .ok [toRow testConcept] := rfl
  rw [hfetch]
  simp only [List.isEmpty_cons, Bool.false_eq_true, if_false, List.filterMap_cons,
    scoreRow_testConcept, List.filterMap_nil, sortByWeightedDesc, List.insertionSort,
    List.orderedInsert, List.take]

/-! ### Claim theorems: search pipeline -/

/-- Claim C1: every result of the hybrid path and of the native-index path has
`weighted_score = similarity * credibility_score` with `similarity` at least
the threshold argument of the call, and the credibility used defaults to `1.0`
when the concept stores none. -/
theorem results_weighted_and_above_threshold (eng : Engine) (qemb : List ℚ)
    (limit : ℕ) (th : ℚ) (sts : Option (List String)) :
    (∀ r ∈ searchHybrid eng qemb limit th sts,
        r.weighted = r.similarity * r.credibility ∧ th ≤ r.similarity) ∧
    (∀ r ∈ searchWithVectorIndex eng qemb limit th sts,
        r.weighted = r.similarity * r.credibility ∧ th ≤ r.similarity) ∧
    (∀ c : Concept, c.credibility = none →
        (toRow c).credibility = 1 ∧
          ∀ sc : ℚ, (mkNativeResult (c, sc)).credibility = 1) := by
  refine ⟨?_, ?_, ?_⟩
  · intro r hr
    obtain ⟨row, hrow⟩ := mem_searchHybrid hr
    obtain ⟨h1, h2, _⟩ := scoreRow_eq_some hrow
    exact ⟨h1, h2⟩
  · intro r hr
    rcases mem_searchWithVectorIndex hr with ⟨p, hp, hpr⟩ | hmem
    · subst hpr
      exact ⟨rfl, hp⟩
    · obtain ⟨row, hrow⟩ := mem_searchHybrid hmem
      obtain ⟨h1, h2, _⟩ := scoreRow_eq_some hrow
      exact ⟨h1, h2⟩
  · intro c hc
    refine ⟨by simp [toRow, hc], fun sc => by simp [mkNativeResult, hc]⟩

theorem results_weighted_and_above_threshold_witness :
    testResult ∈ searchHybrid testEngineHybrid [1] 10 ((1:ℚ)/2) none ∧
    testResult.weighted = testResult.similarity * testResult.credibility ∧
    ((1:ℚ)/2) ≤ testResult.similarity := by
  have hmem : testResult ∈ searchHybrid testEngineHybrid [1] 10 ((1:ℚ)/2) none := by
    rw [searchHybrid_fixture_eval]
    exact List.mem_singleton.mpr rfl
  obtain ⟨h1, h2⟩ := (results_weighted_and_above_threshold testEngineHybrid [1] 10
    ((1:ℚ)/2) none).1 testResult hmem
  exact ⟨hmem, h1, h2⟩

/-- Claim C2: every result list of a semantic search call - hybrid path,
native-index path, and the dispatching `semantic_search_with_ranking` - is
sorted non-increasingly by `weighted_score` across adjacent elements (stated
as pairwise order) and has length at most `limit`. -/
theorem results_sorted_desc_and_within_limit (eng : Engine) (query : String)
    (qemb : List ℚ) (limit : ℕ) (th : ℚ) (sts : Option (List String)) :
    (List.Pairwise weightedGE (searchHybrid eng qemb limit th sts) ∧
      (searchHybrid eng qemb limit th sts).length ≤ limit) ∧
    (List.Pairwise weightedGE (searchWithVectorIndex eng qemb limit th sts) ∧
      (searchWithVectorIndex eng qemb limit th sts).length ≤ limit) ∧
    (List.Pairwise weightedGE (semantic_search_with_ranking eng query limit th sts) ∧
      (semantic_search_with_ranking eng query limit th sts).length ≤ limit) := by
  refine ⟨sorted_take_searchHybrid eng qemb limit th sts,
    sorted_take_searchWithVectorIndex eng qemb limit th sts, ?_⟩
  unfold semantic_search_with_ranking
  by_cases hq : query = ""
  · rw [if_pos hq]
    exact ⟨List.Pairwise.nil, by simp⟩
  · rw [if_neg hq]
    cases hvi : eng.hasVectorIndex with
    | true =>
        simp only [hvi, if_true]
        exact sorted_take_searchWithVectorIndex eng _ limit _ sts
    | false =>
        simp only [hvi, Bool.false_eq_true, if_false]
        exact sorted_take_searchHybrid eng _ limit _ sts

/-- Claim C5: if the native-index query raises, `_search_with_vector_index`
surfaces no error and returns exactly the hybrid-search result for the same
embedding, limit, threshold and source types. -/
theorem index_failure_returns_hybrid_result (eng : Engine) (qemb : List ℚ)
    (limit : ℕ) (th : ℚ) (sts : Option (List String))
    (hfail : eng.indexQuery qemb (min (limit * 3) 100) = .error ()) :
    searchWithVectorIndex eng qemb limit th sts
      = searchHybrid eng qemb limit th sts := by
  unfold searchWithVectorIndex
  rw [nativeQueryRows_error_of_indexFail hfail]

theorem index_failure_returns_hybrid_result_witness :
    testEngineIndexFail.indexQuery [1] (min (10 * 3) 100) = .error () ∧
    searchWithVectorIndex testEngineIndexFail [1] 10 ((1:ℚ)/2) none
      = searchHybrid testEngineIndexFail [1] 10 ((1:ℚ)/2) none :=
  ⟨rfl, index_failure_returns_hybrid_result testEngineIndexFail [1] 10 ((1:ℚ)/2)
    none rfl⟩

/-- Claim C7, evaluated at the failing input: with a non-empty `source_types`
list the hybrid query text splices `AND n.source_type IN $source_types`
directly after `MATCH (n:Concept)` with no `WHERE`, which is invalid Cypher;
the fetch therefore raises, `_search_hybrid` catches and returns `[]`, and the
concept matching the filter is not returned - although the same engine and
query do return it when the filter is absent. -/
theorem hybrid_source_filter_bug :
    hybridSourceFilter (some ["official"]) = "AND n.source_type IN $source_types" ∧
    fragmentOkAfterMatch (hybridSourceFilter (some ["official"])) = false ∧
    hybridFetch [testConcept] (some ["official"]) = .error () ∧
    searchHybrid testEngineHybrid [1] 10 ((1:ℚ)/2) (some ["official"]) = [] ∧
    sourceTypeMatches (some ["official"]) testConcept = true ∧
    searchHybrid testEngineHybrid [1] 10 ((1:ℚ)/2) none = [testResult] :=
  ⟨rfl, by decide, rfl, rfl, by decide, searchHybrid_fixture_eval⟩

/-! ### Claim theorems: cosine similarity -/

/-- Claim C9: `cosine_similarity(v, v)` equals `1.0` for every non-zero
vector `v` (some component non-zero). -/
theorem cosine_self_eq_one (v : List ℚ) (hv : ∃ x ∈ v, x ≠ 0) :
    cosine_similarity (PyVec.list v) (PyVec.list v) = 1 := by
  have hpos : 0 < dotQ v v := dotQ_self_pos v hv
  show (if v.length ≠ v.length then (0:ℝ)
    else if dotQ v v = 0 ∨ dotQ v v = 0 then 0 else cosineOfLists v v) = 1
  rw [if_neg (by simp), if_neg (by simpa [or_self] using ne_of_gt hpos)]
  unfold cosineOfLists
  have hc : (0:ℝ) < ((dotQ v v : ℚ) : ℝ) := by exact_mod_cast hpos
  rw [Real.mul_self_sqrt hc.le]
  exact div_self (ne_of_gt hc)

theorem cosine_self_eq_one_witness :
    (∃ x ∈ ([1, 2] : List ℚ), x ≠ 0) ∧
      cosine_similarity (PyVec.list [1, 2]) (PyVec.list [1, 2]) = 1 :=
  ⟨by decide, cosine_self_eq_one [1, 2] (by decide)⟩

lemma cosine_deser_left_none {v1 v2 : PyVec} (h : pyDeserialize v1 = none) :
    cosine_similarity v1 v2 = 0 := by
  unfold cosine_similarity
  rw [h]

lemma cosine_deser_right_none {v1 v2 : PyVec} (h : pyDeserialize v2 = none) :
    cosine_similarity v1 v2 = 0 := by
  unfold cosine_similarity
  rcases hd : pyDeserialize v1 with _ | u
  · rfl
  · dsimp only
    rw [h]

lemma cosine_not_list_left {v1 v2 : PyVec} {u : PyVec}
    (hd : pyDeserialize v1 = some u) (h : asNumList u = none) :
    cosine_similarity v1 v2 = 0 := by
  unfold cosine_similarity
  rw [hd]
  dsimp only
  rcases hd2 : pyDeserialize v2 with _ | w
  · rfl
  · dsimp only
    rw [h]

lemma cosine_not_list_right {v1 v2 : PyVec} {w : PyVec}
    (hd2 : pyDeserialize v2 = some w) (h : asNumList w = none) :
    cosine_similarity v1 v2 = 0 := by
  unfold cosine_similarity
  rcases hd1 : pyDeserialize v1 with _ | u
  · rfl
  · dsimp only
    rw [hd2]
    dsimp only
    rcases h3 : asNumList u with _ | a
    · rfl
    · rw [h]

/-- Claim C8: `cosine_similarity` returns `0.0` on every malformed input - a
string whose deserialisation fails, a deserialised value that is not a list,
mismatched lengths, or a zero norm (over exact arithmetic a vanishing
Euclidean norm is exactly `dotQ a a = 0`) - and, being a total function in
the embedding, it raises on none of them. -/
theorem cosine_malformed_inputs_return_zero (v1 v2 : PyVec) (a b : List ℚ) :
    (pyDeserialize v1 = none → cosine_similarity v1 v2 = 0) ∧
    (pyDeserialize v2 = none → cosine_similarity v1 v2 = 0) ∧
    ((pyDeserialize v1).bind asNumList = none → cosine_similarity v1 v2 = 0) ∧
    ((pyDeserialize v2).bind asNumList = none → cosine_similarity v1 v2 = 0) ∧
    (a.length ≠ b.length →
      cosine_similarity (PyVec.list a) (PyVec.list b) = 0) ∧
    ((dotQ a a = 0 ∨ dotQ b b = 0) →
      cosine_similarity (PyVec.list a) (PyVec.list b) = 0) := by
  refine ⟨fun h => cosine_deser_left_none h, fun h => cosine_deser_right_none h,
    ?_, ?_, ?_, ?_⟩
  · intro h
    rcases hd : pyDeserialize v1 with _ | u
    · exact cosine_deser_left_none hd
    · rw [hd] at h
      simp only [Option.some_bind] at h
      exact cosine_not_list_left hd h
  · intro h
    rcases hd2 : pyDeserialize v2 with _ | w
    · exact cosine_deser_right_none hd2
    · rw [hd2] at h
      simp only [Option.some_bind] at h
      exact cosine_not_list_right hd2 h
  · intro h
    show (if a.length ≠ b.length then (0:ℝ) else _) = 0
    rw [if_pos h]
  · intro h
    by_cases hl : a.length ≠ b.length
    · show (if a.length ≠ b.length then (0:ℝ) else _) = 0
      rw [if_pos hl]
    · show (if a.length ≠ b.length then (0:ℝ)
        else if dotQ a a = 0 ∨ dotQ b b = 0 then 0 else cosineOfLists a b) = 0
      rw [if_neg hl, if_pos h]

theorem cosine_malformed_inputs_return_zero_witness :
    cosine_similarity (PyVec.str none) (PyVec.list [1]) = 0 ∧
    cosine_similarity (PyVec.list [1]) (PyVec.str none) = 0 ∧
    cosine_similarity PyVec.other (PyVec.list [1]) = 0 ∧
    cosine_similarity (PyVec.list [1]) PyVec.other = 0 ∧
    cosine_similarity (PyVec.list [1]) (PyVec.list [1, 2]) = 0 ∧
    cosine_similarity (PyVec.list [0, 0]) (PyVec.list [1, 1]) = 0 :=
  ⟨(cosine_malformed_inputs_return_zero (.str none) (.list [1]) [] []).1 rfl,
    (cosine_malformed_inputs_return_zero (.list [1]) (.str none) [] []).2.1 rfl,
    (cosine_malformed_inputs_return_zero .other (.list [1]) [] []).2.2.1 rfl,
    (cosine_malformed_inputs_return_zero (.list [1]) .other [] []).2.2.2.1 rfl,
    (cosine_malformed_inputs_return_zero (.list [1]) (.list [1, 2])
      [1] [1, 2]).2.2.2.2.1 (by decide),
    (cosine_malformed_inputs_return_zero (.list [0, 0]) (.list [1, 1])
      [0, 0] [1, 1]).2.2.2.2.2 (Or.inl (by norm_num [dotQ]))⟩

/-! ### Claim theorems: construction -/

/-- Claim C6: construction attempts the primary model first (success needs no
backup); on primary failure it attempts the smaller fallback model; when both
fail `EnhancedCourseSearch.__init__` raises `RuntimeError`, which the
assistant constructor catches, degrading to Fallback Text Search instead of
re-raising - `initUnifiedAssistantSearch` is total, so no exception reaches
the caller. -/
theorem encoder_fallback_and_degradation (stOk p b : Bool) :
    (p = true → loadSearchModel p b = .ok ()) ∧
    (p = false → b = true → loadSearchModel p b = .ok ()) ∧
    (p = false → b = false → loadSearchModel p b = .error "RuntimeError") ∧
    (p = false → b = false → initUnifiedAssistantSearch stOk p b = .fallbackText) := by
  refine ⟨fun hp => ?_, fun hp hb => ?_, fun hp hb => ?_, fun hp hb => ?_⟩
  · subst hp; rfl
  · subst hp; subst hb; rfl
  · subst hp; subst hb; rfl
  · subst hp; subst hb
    cases stOk <;> rfl

theorem encoder_fallback_and_degradation_witness :
    loadSearchModel true false = .ok () ∧
    loadSearchModel false true = .ok () ∧
    loadSearchModel false false = .error "RuntimeError" ∧
    initUnifiedAssistantSearch true false false = .fallbackText :=
  ⟨(encoder_fallback_and_degradation true true false).1 rfl,
    (encoder_fallback_and_degradation true false true).2.1 rfl rfl,
    (encoder_fallback_and_degradation true false false).2.2.1 rfl rfl,
    (encoder_fallback_and_degradation true false false).2.2.2 rfl rfl⟩

/-- Claim C10: the constructor stores `min(max_workers, 1)` once and never
reassigns it, so for any requested worker count of at least 1 the stored value
is exactly 1, and the hybrid thread pool size
`min(self.max_workers, len(batches))` never exceeds one worker. -/
theorem max_workers_clamped_to_one (mw : ℕ) (hmw : 1 ≤ mw) (nb : ℕ)
    (encode : String → List ℚ) (cosQ : List ℚ → List ℚ → ℚ)
    (store : List Concept)
    (indexQuery : List ℚ → ℕ → Except Unit (List (Concept × ℚ)))
    (hvi : Bool) :
    storedMaxWorkers mw = 1 ∧
    (mkEngine encode cosQ store indexQuery hvi mw).maxWorkers = 1 ∧
    hybridPoolWorkers (storedMaxWorkers mw) nb ≤ 1 := by
  have h1 : storedMaxWorkers mw = 1 := by
    unfold storedMaxWorkers
    omega
  refine ⟨h1, h1, ?_⟩
  unfold hybridPoolWorkers
  rw [h1]
  exact min_le_left 1 nb

theorem max_workers_clamped_to_one_witness :
    (1 ≤ 4) ∧ storedMaxWorkers 4 = 1 ∧
      (mkEngine (fun _ => [1]) (fun _ _ => 1) [] (fun _ _ => .error ())
        false 4).maxWorkers = 1 ∧
      hybridPoolWorkers (storedMaxWorkers 4) 7 ≤ 1 :=
  ⟨by decide,
    (max_workers_clamped_to_one 4 (by decide) 7 (fun _ => [1]) (fun _ _ => 1) []
      (fun _ _ => .error ()) false).1,
    (max_workers_clamped_to_one 4 (by decide) 7 (fun _ => [1]) (fun _ _ => 1) []
      (fun _ _ => .error ()) false).2.1,
    (max_workers_clamped_to_one 4 (by decide) 7 (fun _ => [1]) (fun _ _ => 1) []
      (fun _ _ => .error ()) false).2.2⟩

/-! ### Helper lemmas about the result cache -/

lemma cacheHit_none_of_lookup_none {cache : List (CacheKey × CacheEntry)}
    {k : CacheKey} {ttl now : ℚ} (h : lookupCache cache k = none) :
    cacheHit cache k ttl now = none := by
  unfold cacheHit
  rw [h]

lemma insertCache_of_lookup_none {l : List (CacheKey × CacheEntry)}
    {k : CacheKey} {e : CacheEntry} (h : lookupCache l k = none) :
    insertCache l k e = l ++ [(k, e)] := by
  induction l with
  | nil => rfl
  | cons p rest ih =>
      obtain ⟨k1, e1⟩ := p
      simp only [lookupCache] at h
      simp only [insertCache, List.cons_append]
      by_cases hk : k1 = k
      · rw [if_pos hk] at h
        exact absurd h (by simp)
      · rw [if_neg hk] at h
        rw [if_neg hk, ih h]

lemma lookupCache_append_single {l : List (CacheKey × CacheEntry)}
    {k : CacheKey} {e : CacheEntry} (h : lookupCache l k = none) :
    lookupCache (l ++ [(k, e)]) k = some e := by
  induction l with
  | nil => simp [lookupCache]
  | cons p rest ih =>
      obtain ⟨k1, e1⟩ := p
      simp only [lookupCache, List.cons_append] at h ⊢
      by_cases hk : k1 = k
      · rw [if_pos hk] at h
        exact absurd h (by simp)
      · rw [if_neg hk] at h ⊢
        exact ih h

lemma cleanup_noop {st : CachedSearchState}
    (h : st.cache.length ≤ st.maxCacheSize) :
    cleanup_cache_if_needed st = st := by
  unfold cleanup_cache_if_needed
  rw [if_neg (not_lt.mpr h)]

/-! ### Claim theorems: result cache -/

/-- Claim C4: a `search` call that stores a new entry (`use_cache=True`,
non-empty query, stale or missing entry) leaves at most `max_cache_size`
entries; the insertion-plus-eviction step is a total function of the state,
hence never raises; and whenever the size after insertion exceeds the
maximum, the cleanup keeps at most `max_cache_size / 2` entries and every
evicted entry has a timestamp no newer than every kept one (eviction starts
from the oldest). -/
theorem cache_size_bounded_after_store
    (engine : String → ℕ → ℚ → Option (List String) → List SearchResult)
    (st : CachedSearchState) (now : ℚ) (query : String) (limit : ℕ) (th : ℚ)
    (sts : Option (List String))
    (hq : query ≠ "")
    (hmiss : cacheHit st.cache (generate_cache_key query limit th sts)
      st.cacheTtl now = none) :
    ((CachedSearch.search engine st now query limit th sts true).2).cache.length
        ≤ st.maxCacheSize ∧
    (∀ inserted : List (CacheKey × CacheEntry),
      inserted = insertCache st.cache (generate_cache_key query limit th sts)
          ⟨engine query limit th sts, now⟩ →
      inserted.length > st.maxCacheSize →
        ((CachedSearch.search engine st now query limit th sts true).2).cache.length
            ≤ st.maxCacheSize / 2 ∧
        ∀ p ∈ ((CachedSearch.search engine st now query limit th sts true).2).cache,
          ∀ e ∈ inserted,
            e ∉ ((CachedSearch.search engine st now query limit th sts true).2).cache →
              e.2.timestamp ≤ p.2.timestamp) := by
  have hsearch : (CachedSearch.search engine st now query limit th sts true).2
      = cleanup_cache_if_needed
          { st with
            cache := insertCache st.cache (generate_cache_key query limit th sts)
              ⟨engine query limit th sts, now⟩,
            engineCalls := st.engineCalls + 1 } := by
    unfold CachedSearch.search
    rw [if_neg hq]
    simp only [Bool.not_true, Bool.false_eq_true, if_false]
    rw [hmiss]
  rw [hsearch]
  unfold cleanup_cache_if_needed
  by_cases hlen :
      (insertCache st.cache (generate_cache_key query limit th sts)
        ⟨engine query limit th sts, now⟩).length > st.maxCacheSize
  · rw [if_pos hlen]
    have hlen2 : ∀ l : List (CacheKey × CacheEntry),
        ((sortEntriesByTimestampDesc l).take (st.maxCacheSize / 2)).length
          ≤ st.maxCacheSize / 2 := by
      intro l
      rw [List.length_take]
      exact min_le_left _ _
    refine ⟨le_trans (hlen2 _) (Nat.div_le_self _ _), ?_⟩
    intro inserted hins _
    subst hins
    refine ⟨hlen2 _, ?_⟩
    intro p hp e he hnot
    set sorted := sortEntriesByTimestampDesc
      (insertCache st.cache (generate_cache_key query limit th sts)
        ⟨engine query limit th sts, now⟩) with hsorted
    have hesort : e ∈ sorted :=
      (List.perm_insertionSort entryNewerEq _).mem_iff.mpr he
    have hsplit : sorted = sorted.take (st.maxCacheSize / 2)
        ++ sorted.drop (st.maxCacheSize / 2) :=
      (List.take_append_drop _ _).symm
    have hedrop : e ∈ sorted.drop (st.maxCacheSize / 2) := by
      rcases List.mem_append.mp (hsplit ▸ hesort) with h1 | h1
      · exact absurd h1 hnot
      · exact h1
    have hpair : List.Pairwise entryNewerEq
        (sorted.take (st.maxCacheSize / 2) ++ sorted.drop (st.maxCacheSize / 2)) := by
      rw [← hsplit]
      exact List.sorted_insertionSort entryNewerEq _
    exact (List.pairwise_append.mp hpair).2.2 p hp e hedrop
  · rw [if_neg hlen]
    exact ⟨not_lt.mp hlen, fun inserted hins hgt => absurd hgt (hins ▸ hlen)⟩

theorem cache_size_bounded_after_store_witness :
    ("a" ≠ "") ∧
    cacheHit cacheState0.cache (generate_cache_key "a" 10 0 none)
      cacheState0.cacheTtl 0 = none ∧
    ((CachedSearch.search zeroEngine cacheState0 0 "a" 10 0 none true).2).cache.length
      ≤ cacheState0.maxCacheSize :=
  ⟨by decide, rfl,
    (cache_size_bounded_after_store zeroEngine cacheState0 0 "a" 10 0 none
      (by decide) rfl).1⟩

/-- Claim C3 (amended): identical parameters always map to the identical
canonical cache key; and when the first of two consecutive identical
`use_cache=True` calls is a clean miss, the cache held fewer than
`max_cache_size` entries before that call (so the insertion triggers no
batch eviction), and the second call happens within the TTL, the second call
returns the same result list from the cache, changes nothing, and does not
invoke the underlying search engine. -/
theorem cached_search_second_call_served_from_cache
    (engine : String → ℕ → ℚ → Option (List String) → List SearchResult)
    (st : CachedSearchState) (t1 t2 : ℚ) (query : String) (limit : ℕ)
    (th : ℚ) (sts : Option (List String))
    (hq : query ≠ "")
    (hmiss : lookupCache st.cache (generate_cache_key query limit th sts) = none)
    (hroom : st.cache.length < st.maxCacheSize)
    (httl : t2 - t1 < st.cacheTtl) :
    generate_cache_key query limit th sts = ⟨limit, query, sts, th⟩ ∧
    (CachedSearch.search engine
        ((CachedSearch.search engine st t1 query limit th sts true).2)
        t2 query limit th sts true).1
      = (CachedSearch.search engine st t1 query limit th sts true).1 ∧
    (CachedSearch.search engine
        ((CachedSearch.search engine st t1 query limit th sts true).2)
        t2 query limit th sts true).2
      = (CachedSearch.search engine st t1 query limit th sts true).2 := by
  have hfirst : CachedSearch.search engine st t1 query limit th sts true
      = (engine query limit th sts,
         { st with
           cache := st.cache
             ++ [(generate_cache_key query limit th sts,
                  ⟨engine query limit th sts, t1⟩)],
           engineCalls := st.engineCalls + 1 }) := by
    unfold CachedSearch.search
    rw [if_neg hq]
    simp only [Bool.not_true, Bool.false_eq_true, if_false]
    rw [cacheHit_none_of_lookup_none hmiss]
    dsimp only
    rw [insertCache_of_lookup_none hmiss]
    rw [cleanup_noop (by
      simp only [List.length_append, List.length_cons, List.length_nil]
      omega)]
  have hhit : cacheHit
      (st.cache ++ [(generate_cache_key query limit th sts,
        ⟨engine query limit th sts, t1⟩)])
      (generate_cache_key query limit th sts) st.cacheTtl t2
      = some (engine query limit th sts) := by
    unfold cacheHit
    rw [lookupCache_append_single hmiss]
    have hexp : isExpired ⟨engine query limit th sts, t1⟩ st.cacheTtl t2 = false := by
      unfold isExpired
      simp only [decide_eq_false_iff_not, not_lt]
      linarith
    dsimp only
    rw [hexp]
    simp
  have hsecond : CachedSearch.search engine
      ({ st with
         cache := st.cache
           ++ [(generate_cache_key query limit th sts,
                ⟨engine query limit th sts, t1⟩)],
         engineCalls := st.engineCalls + 1 }) t2 query limit th sts true
      = (engine query limit th sts,
         { st with
           cache := st.cache
             ++ [(generate_cache_key query limit th sts,
                  ⟨engine query limit th sts, t1⟩)],
           engineCalls := st.engineCalls + 1 }) := by
    unfold CachedSearch.search
    rw [if_neg hq]
    simp only [Bool.not_true, Bool.false_eq_true, if_false]
    rw [hhit]
  rw [hfirst, hsecond]
  exact ⟨rfl, rfl, rfl⟩

theorem cached_search_second_call_served_from_cache_witness :
    ("a" ≠ "") ∧
    lookupCache cacheState0.cache (generate_cache_key "a" 10 0 none) = none ∧
    cacheState0.cache.length < cacheState0.maxCacheSize ∧
    ((1 : ℚ) - 0 < cacheState0.cacheTtl) ∧
    (CachedSearch.search zeroEngine
        ((CachedSearch.search zeroEngine cacheState0 0 "a" 10 0 none true).2)
        1 "a" 10 0 none true).1
      = (CachedSearch.search zeroEngine cacheState0 0 "a" 10 0 none true).1 :=
  ⟨by decide, rfl, by decide, by norm_num [cacheState0],
    (cached_search_second_call_served_from_cache zeroEngine cacheState0 0 1 "a"
      10 0 none (by decide) rfl (by decide) (by norm_num [cacheState0])).2.1⟩

/-- Claim C3 counterexample: with `max_cache_size = 1`, after caching query
"a" at time 0, two consecutive identical `use_cache=True` searches for query
"b" at times 1 and 2 both invoke the engine: the second call's own insertion
triggers the capacity cleanup, which keeps `1 / 2 = 0` entries and evicts the
entry it just stored, even though that entry is far from expired (age 1 with
TTL 100) when the third call arrives. -/
theorem cached_search_fresh_entry_evicted_counterexample :
    cacheRun2.2.engineCalls = 2 ∧
    cacheRun2.2.cache = [] ∧
    cacheRun3.2.engineCalls = 3 ∧
    isExpired ⟨[], 1⟩ cacheState0.cacheTtl 2 = false :=
  ⟨rfl, rfl, rfl, by
    unfold isExpired cacheState0
    simp only [decide_eq_false_iff_not, not_lt]
    norm_num⟩

end AiTutor
